import Mathlib

/-!
Verification of the AugustCredits request admission-and-forwarding pipeline.

The definitions below are shallow embeddings of the Rust sources of the
repository (src/backend/src): the in-memory sliding-window rate limiter and
metering service (metering.rs), the two upstream forwarders with their retry
loops and header handling (gateway.rs and proxy.rs), the effective-limit
helpers (metering.rs and auth.rs), the proxy admission pipeline (proxy.rs),
and the transaction-confirmation polling loop (blockchain.rs).  Machine
integers are modelled by Nat and Int; wall-clock instants are Nat seconds;
fallible operations return Except; the database and the network are passed
in explicitly as oracle values.
-/

namespace AugustCredits

/-! ## Rate limiting (metering.rs) -/

/-- State of the sliding-window rate limiter of metering.rs
(struct RateLimitWindow): stored request timestamps in seconds, the limit,
and the window length in seconds. -/
structure RateLimitWindow where
  requests : List Nat
  limit : Nat
  window_seconds : Nat
deriving Repr, DecidableEq

/-- RateLimitWindow::new of metering.rs: empty timestamp list with the given
limit and window. -/
def RateLimitWindow.new (limit window_seconds : Nat) : RateLimitWindow :=
  ⟨[], limit, window_seconds⟩

/-- RateLimitWindow::can_make_request of metering.rs, with the wall clock
passed explicitly.  It retains exactly the timestamps with
now - timestamp < window_seconds, then admits (appending now) iff the
retained count is below the limit.  Returns the decision and the updated
window. -/
def RateLimitWindow.can_make_request (w : RateLimitWindow) (now : Nat) :
    Bool × RateLimitWindow :=
  let kept := w.requests.filter (fun timestamp => now - timestamp < w.window_seconds)
  if kept.length < w.limit then
    (true, { w with requests := kept ++ [now] })
  else
    (false, { w with requests := kept })

/-- RateLimitWindow::remaining_requests of metering.rs
(saturating subtraction is Nat subtraction). -/
def RateLimitWindow.remaining_requests (w : RateLimitWindow) : Nat :=
  w.limit - w.requests.length

/-- RateLimitWindow::reset_time of metering.rs: the first stored timestamp
plus the window length, if any timestamp is stored. -/
def RateLimitWindow.reset_time (w : RateLimitWindow) : Option Nat :=
  w.requests.head?.map (fun first => first + w.window_seconds)

/-- Runs a sequence of admission checks on one window, one check per listed
time, threading the window state; returns the list of decisions and the
final window. -/
def RateLimitWindow.checkSeq (w : RateLimitWindow) : List Nat → List Bool × RateLimitWindow
  | [] => ([], w)
  | t :: ts =>
    let step := w.can_make_request t
    let rest := step.2.checkSeq ts
    (step.1 :: rest.1, rest.2)

/-- Error type of error.rs (enum AppError), restricted to the variants the
admission pipeline produces.  AppError::RateLimit carries a formatted
message in the source; here the three numbers interpolated into that
message (limit, window seconds, reset time) are kept structurally. -/
inductive AppError where
  | notFound (msg : String)
  | rateLimit (limit window reset : Nat)
  | validation (msg : String)
  | auth (msg : String)
  | internal (msg : String)
  | externalService (attemptsMade : Nat)
deriving Repr, DecidableEq

/-- Lookup in the in-memory rate-limit map of MeteringService (a HashMap in
the source, modelled as an association list). -/
def lookupWindow (m : List (String × RateLimitWindow)) (k : String) :
    Option RateLimitWindow :=
  (m.find? (fun e => e.1 == k)).map (fun e => e.2)

/-- Store-back into the in-memory rate-limit map: replaces the entry for the
key if present, appends it otherwise (the effect of HashMap entry().or_insert
followed by in-place mutation). -/
def storeWindow (m : List (String × RateLimitWindow)) (k : String)
    (w : RateLimitWindow) : List (String × RateLimitWindow) :=
  if (m.find? (fun e => e.1 == k)).isSome then
    m.map (fun e => if e.1 == k then (k, w) else e)
  else
    m ++ [(k, w)]

/-- MeteringService::check_rate_limit of metering.rs, after the limit and
window have been resolved: fetches or lazily creates the window for the
cache key, runs one admission check at the given time, and on rejection
reports AppError::RateLimit carrying the limit, the window and the reset
time of the pruned window (0 when the window is empty). -/
def MeteringService.check_rate_limit (rate_limits : List (String × RateLimitWindow))
    (cache_key : String) (limit window now : Nat) :
    Except AppError Unit × List (String × RateLimitWindow) :=
  let window_entry := (lookupWindow rate_limits cache_key).getD (RateLimitWindow.new limit window)
  let step := window_entry.can_make_request now
  let rate_limits1 := storeWindow rate_limits cache_key step.2
  if step.1 then
    (Except.ok (), rate_limits1)
  else
    (Except.error (AppError.rateLimit limit window (step.2.reset_time.getD 0)), rate_limits1)

/-! ## Basic lemmas about the window -/

theorem can_make_request_limit (w : RateLimitWindow) (now : Nat) :
    (w.can_make_request now).2.limit = w.limit := by
  unfold RateLimitWindow.can_make_request
  dsimp only
  split <;> rfl

theorem can_make_request_window (w : RateLimitWindow) (now : Nat) :
    (w.can_make_request now).2.window_seconds = w.window_seconds := by
  unfold RateLimitWindow.can_make_request
  dsimp only
  split <;> rfl

/-- If every stored timestamp survives pruning and the count is below the
limit, the check admits and appends the time. -/
theorem can_make_request_admit (w : RateLimitWindow) (now : Nat)
    (hkeep : ∀ a ∈ w.requests, now - a < w.window_seconds)
    (hlt : w.requests.length < w.limit) :
    w.can_make_request now = (true, ⟨w.requests ++ [now], w.limit, w.window_seconds⟩) := by
  unfold RateLimitWindow.can_make_request
  have hf : w.requests.filter (fun timestamp => decide (now - timestamp < w.window_seconds))
      = w.requests := by
    apply List.filter_eq_self.mpr
    intro a ha
    exact decide_eq_true (hkeep a ha)
  simp only [hf]
  rw [if_pos hlt]

/-- Admission phase: starting from stored timestamps acc, a batch of checks
at times ts is admitted wholesale when the total count stays within the
limit, every stored timestamp survives every later check's pruning, and the
check times survive each other's pruning. -/
theorem checkSeq_admits (L W : Nat) (ts : List Nat) : ∀ (acc : List Nat),
    acc.length + ts.length ≤ L →
    (∀ a ∈ acc, ∀ t ∈ ts, t - a < W) →
    ts.Pairwise (fun a b => b - a < W) →
    RateLimitWindow.checkSeq ⟨acc, L, W⟩ ts = (List.replicate ts.length true, ⟨acc ++ ts, L, W⟩) := by
  induction ts with
  | nil =>
    intro acc _ _ _
    simp [RateLimitWindow.checkSeq]
  | cons t ts ih =>
    intro acc hlen hacc hpw
    have hstep : RateLimitWindow.can_make_request ⟨acc, L, W⟩ t
        = (true, ⟨acc ++ [t], L, W⟩) := by
      apply can_make_request_admit
      · intro a ha
        exact hacc a ha t (by simp)
      · show acc.length < L
        simp only [List.length_cons] at hlen
        omega
    have hacc' : ∀ a ∈ acc ++ [t], ∀ u ∈ ts, u - a < W := by
      intro a ha u hu
      rcases List.mem_append.mp ha with h | h
      · exact hacc a h u (List.mem_cons_of_mem _ hu)
      · have : a = t := by simpa using h
        subst this
        exact (List.pairwise_cons.mp hpw).1 u hu
    have hlen' : (acc ++ [t]).length + ts.length ≤ L := by
      have : (acc ++ [t]).length = acc.length + 1 := by simp
      simp only [List.length_cons] at hlen
      omega
    have hrec := ih (acc ++ [t]) hlen' hacc' (List.pairwise_cons.mp hpw).2
    simp only [RateLimitWindow.checkSeq, hstep, hrec, List.length_cons,
      List.replicate_succ, List.append_assoc, List.cons_append, List.nil_append]

theorem lookup_storeWindow (m : List (String × RateLimitWindow)) (k : String)
    (w : RateLimitWindow) : lookupWindow (storeWindow m k w) k = some w := by
  unfold lookupWindow storeWindow
  by_cases h : (m.find? (fun e => e.1 == k)).isSome
  · rw [if_pos h]
    induction m with
    | nil => simp at h
    | cons a m ih =>
      by_cases ha : (a.1 == k) = true
      · simp only [List.map_cons, if_pos ha]
        have hfind : List.find? (fun e => e.1 == k)
            ((k, w) :: List.map (fun e => if (e.1 == k) = true then (k, w) else e) m)
            = some (k, w) := List.find?_cons_of_pos _ (by simp)
        rw [hfind]
        rfl
      · have ha' : (a.1 == k) = false := by simpa using ha
        rw [List.find?_cons_of_neg _ (by simp [ha'])] at h
        simp only [List.map_cons, if_neg ha]
        rw [List.find?_cons_of_neg _ (by simp [ha'])]
        exact ih h
  · rw [if_neg h]
    have hnone : m.find? (fun e => e.1 == k) = none := by
      cases hm : m.find? (fun e => e.1 == k) with
      | none => rfl
      | some v => rw [hm] at h; simp at h
    rw [List.find?_append, hnone]
    simp [List.find?_cons]

/-- Claim C1: for every limit L, window length W and key, starting from an
empty window, L admission checks within W seconds of each other are all
admitted, a further check still within the window of all of them is
rejected, and a check made once W seconds have elapsed from the oldest
admitted timestamp is admitted again (capacity restored); moreover every
single check first prunes the timestamps that have left the window and then
admits, appending the current time, exactly when the pruned count is below
the limit. -/
theorem rate_limit_window_scenario (L W t0 tR tA : Nat) (rest : List Nat)
    (w : RateLimitWindow) (now : Nat)
    (hlen : (t0 :: rest).length = L)
    (hpw : (t0 :: rest).Pairwise (fun a b => b - a < W))
    (hR : ∀ t ∈ t0 :: rest, tR - t < W)
    (hA : W ≤ tA - t0) :
    (RateLimitWindow.checkSeq (RateLimitWindow.new L W) (t0 :: rest)).1 = List.replicate L true
    ∧ ((RateLimitWindow.checkSeq (RateLimitWindow.new L W) (t0 :: rest)).2.can_make_request tR).1 = false
    ∧ ((((RateLimitWindow.checkSeq (RateLimitWindow.new L W) (t0 :: rest)).2.can_make_request tR).2).can_make_request tA).1 = true
    ∧ w.can_make_request now =
        (if (w.requests.filter (fun timestamp => now - timestamp < w.window_seconds)).length < w.limit
         then (true, ⟨(w.requests.filter (fun timestamp => now - timestamp < w.window_seconds)) ++ [now],
                w.limit, w.window_seconds⟩)
         else (false, ⟨w.requests.filter (fun timestamp => now - timestamp < w.window_seconds),
                w.limit, w.window_seconds⟩)) := by
  have hseq : RateLimitWindow.checkSeq (RateLimitWindow.new L W) (t0 :: rest)
      = (List.replicate (t0 :: rest).length true, ⟨t0 :: rest, L, W⟩) := by
    have := checkSeq_admits L W (t0 :: rest) []
      (by simp only [List.length_nil, Nat.zero_add]; omega)
      (by intro a ha; cases ha) hpw
    simpa [RateLimitWindow.new] using this
  have hfR : (t0 :: rest).filter (fun timestamp => decide (tR - timestamp < W)) = t0 :: rest :=
    List.filter_eq_self.mpr (fun a ha => decide_eq_true (hR a ha))
  have hrej : RateLimitWindow.can_make_request ⟨t0 :: rest, L, W⟩ tR
      = (false, ⟨t0 :: rest, L, W⟩) := by
    unfold RateLimitWindow.can_make_request
    dsimp only
    rw [hfR, if_neg (by omega)]
  have hrec : (RateLimitWindow.can_make_request ⟨t0 :: rest, L, W⟩ tA).1 = true := by
    unfold RateLimitWindow.can_make_request
    dsimp only
    have hlt : ((t0 :: rest).filter (fun timestamp => decide (tA - timestamp < W))).length < L := by
      have hdrop : (t0 :: rest).filter (fun timestamp => decide (tA - timestamp < W))
          = rest.filter (fun timestamp => decide (tA - timestamp < W)) := by
        rw [List.filter_cons]
        simp only [decide_eq_true_eq]
        rw [if_neg (by omega)]
      rw [hdrop]
      have h1 : (rest.filter (fun timestamp => decide (tA - timestamp < W))).length ≤ rest.length :=
        List.length_filter_le _ _
      simp only [List.length_cons] at hlen
      omega
    rw [if_pos hlt]
  refine ⟨by rw [hseq, hlen], by rw [hseq]; exact congrArg Prod.fst hrej, ?_, ?_⟩
  · rw [hseq]
    dsimp only
    rw [hrej]
    exact hrec
  · unfold RateLimitWindow.can_make_request
    dsimp only

theorem rate_limit_window_scenario_witness :
    (RateLimitWindow.checkSeq (RateLimitWindow.new 2 60) [0, 10]).1 = List.replicate 2 true
    ∧ ((RateLimitWindow.checkSeq (RateLimitWindow.new 2 60) [0, 10]).2.can_make_request 20).1 = false
    ∧ ((((RateLimitWindow.checkSeq (RateLimitWindow.new 2 60) [0, 10]).2.can_make_request 20).2).can_make_request 60).1 = true
    ∧ (RateLimitWindow.can_make_request ⟨[3], 1, 60⟩ 5) =
        (if (([3].filter (fun timestamp => 5 - timestamp < 60)).length < 1)
         then (true, ⟨([3].filter (fun timestamp => 5 - timestamp < 60)) ++ [5], 1, 60⟩)
         else (false, ⟨[3].filter (fun timestamp => 5 - timestamp < 60), 1, 60⟩)) :=
  rate_limit_window_scenario 2 60 0 20 60 [10] ⟨[3], 1, 60⟩ 5 rfl
    (by decide) (by decide) (by decide)

/-- Claim C10 (implicit): once the in-memory rate-limit map holds an entry
for a key, a later admission check with any freshly resolved limit and
window configuration leaves the entry's stored limit and window untouched
and decides admission purely from the stored entry: the new configuration
is ignored. -/
theorem check_rate_limit_entry_frozen (rate_limits : List (String × RateLimitWindow))
    (key : String) (w : RateLimitWindow) (limit' window' now : Nat)
    (h : lookupWindow rate_limits key = some w) :
    lookupWindow (MeteringService.check_rate_limit rate_limits key limit' window' now).2 key
      = some (w.can_make_request now).2
    ∧ (w.can_make_request now).2.limit = w.limit
    ∧ (w.can_make_request now).2.window_seconds = w.window_seconds
    ∧ ((MeteringService.check_rate_limit rate_limits key limit' window' now).1 = Except.ok ()
        ↔ (w.can_make_request now).1 = true) := by
  unfold MeteringService.check_rate_limit
  simp only [h, Option.getD_some]
  refine ⟨?_, can_make_request_limit w now, can_make_request_window w now, ?_⟩
  · split <;> exact lookup_storeWindow rate_limits key _
  · cases hstep : (w.can_make_request now).1 with
    | true => simp [hstep]
    | false => simp [hstep]

theorem check_rate_limit_entry_frozen_witness :
    lookupWindow (MeteringService.check_rate_limit [("u:e", ⟨[0], 5, 60⟩)] "u:e" 99 7 10).2 "u:e"
      = some ((RateLimitWindow.can_make_request ⟨[0], 5, 60⟩ 10).2)
    ∧ (RateLimitWindow.can_make_request ⟨[0], 5, 60⟩ 10).2.limit = RateLimitWindow.limit ⟨[0], 5, 60⟩
    ∧ (RateLimitWindow.can_make_request ⟨[0], 5, 60⟩ 10).2.window_seconds
        = RateLimitWindow.window_seconds ⟨[0], 5, 60⟩
    ∧ ((MeteringService.check_rate_limit [("u:e", ⟨[0], 5, 60⟩)] "u:e" 99 7 10).1 = Except.ok ()
        ↔ (RateLimitWindow.can_make_request ⟨[0], 5, 60⟩ 10).1 = true) :=
  check_rate_limit_entry_frozen [("u:e", ⟨[0], 5, 60⟩)] "u:e" ⟨[0], 5, 60⟩ 99 7 10 rfl

/-! ## Users, endpoints and effective limits (models.rs, auth.rs, metering.rs) -/

/-- User subscription tiers of models.rs (enum UserTier). -/
inductive UserTier where
  | free
  | pro
  | enterprise
  | admin
deriving Repr, DecidableEq

/-- The value of a Rust `as u32` cast of an i32, as a Nat. -/
def u32cast (l : Int) : Nat := (l % (2 ^ 32 : Int)).toNat

/-- The value of a Rust `as u64` cast of an i32, as a Nat. -/
def u64cast (l : Int) : Nat := (l % (2 ^ 64 : Int)).toNat

/-- Database user record of models.rs (struct User), restricted to the
fields the admission pipeline reads. -/
structure User where
  id : Nat
  is_active : Bool
  tier : UserTier
  monthly_limit : Option Int
  rate_limit_override : Option Int
deriving Repr, DecidableEq

/-- Authenticated caller context of auth.rs (struct AuthUser). -/
structure AuthUser where
  id : Nat
  wallet_address : String
  api_key : String
  tier : UserTier
  is_active : Bool
  monthly_limit : Option Int
  rate_limit_override : Option Int
deriving Repr, DecidableEq

/-- Monetized endpoint record of models.rs (struct ApiEndpoint), restricted
to the fields the admission and forwarding pipeline reads. -/
structure ApiEndpoint where
  id : Nat
  name : String
  upstream_url : String
  price_per_request : String
  is_active : Bool
  rate_limit : Option Int
  rate_limit_window : Option Int
  allowed_methods : List String
  request_timeout : Option Int
  retry_attempts : Option Int
deriving Repr, DecidableEq

/-- MeteringService::get_rate_limit of metering.rs: the limit is the user's
override, else the endpoint's limit, else the service default; the window is
the endpoint's window, else the service default. -/
def MeteringService.get_rate_limit (default_rate_limit default_window_seconds : Nat)
    (user : User) (endpoint : ApiEndpoint) : Nat × Nat :=
  let limit := match user.rate_limit_override with
    | some l => u32cast l
    | none => match endpoint.rate_limit with
      | some l => u32cast l
      | none => default_rate_limit
  let window := match endpoint.rate_limit_window with
    | some w2 => u32cast w2
    | none => default_window_seconds
  (limit, window)

/-- The tier-based limit table inside get_rate_limit_for_user of auth.rs. -/
def tier_limit : UserTier → Int
  | UserTier.free => 100
  | UserTier.pro => 1000
  | UserTier.enterprise => 5000
  | UserTier.admin => 10000

/-- get_rate_limit_for_user of auth.rs: the user's override if present,
otherwise the more restrictive of the tier-based limit and the endpoint
limit. -/
def get_rate_limit_for_user (user : AuthUser) (endpoint_limit : Option Int) : Int :=
  match user.rate_limit_override with
  | some override_limit => override_limit
  | none =>
    let t := tier_limit user.tier
    match endpoint_limit with
    | some limit => min t limit
    | none => t

/-- Modelled from the spec: get_monthly_limit_for_user is imported by
proxy.rs from auth.rs but no definition of it appears in the sources; the
spec gives the caller an "optional monthly request quota" and runs the
monthly check "if caller has a monthly quota", so the helper yields the
caller's optional monthly limit. -/
def get_monthly_limit_for_user (user : AuthUser) : Option Int :=
  user.monthly_limit

/-! ## Proxy service (proxy.rs) -/

/-- Error type of proxy.rs (enum ProxyError). -/
inductive ProxyError where
  | endpointNotFound (name : String)
  | endpointInactive (name : String)
  | methodNotAllowed (method : String)
  | rateLimitExceeded (current limit : Int) (reset_time : Nat)
  | monthlyLimitExceeded (current limit : Int)
  | invalidPricing
  | invalidRequestBody
  | timedOut
  | upstreamError (msg : String)
  | databaseError
  | internalError
deriving Repr, DecidableEq

/-- ProxyService::check_rate_limits of proxy.rs.  The database collaborator
returns the current window count together with a stored limit that the code
discards (rate_check, none modelling a storage failure); the effective limit
comes from get_rate_limit_for_user, and a rejection reports reset_time as
the current time plus the endpoint window (default 60 s). -/
def ProxyService.check_rate_limits (user : AuthUser) (endpoint : ApiEndpoint)
    (rate_check : Option (Int × Int)) (now : Nat) : Except ProxyError Unit :=
  let rate_limit := get_rate_limit_for_user user endpoint.rate_limit
  let window_seconds := u64cast (endpoint.rate_limit_window.getD 60)
  match rate_check with
  | none => Except.error ProxyError.databaseError
  | some (current_count, _limit) =>
    if current_count ≥ rate_limit then
      Except.error (ProxyError.rateLimitExceeded current_count rate_limit (now + window_seconds))
    else
      Except.ok ()

/-- ProxyService::check_monthly_limits of proxy.rs: when the caller has a
monthly quota, the current-period usage records are summed (usage_records,
none modelling a storage failure) and the call is rejected when the total is
at or over the quota. -/
def ProxyService.check_monthly_limits (user : AuthUser)
    (usage_records : Option (List Int)) : Except ProxyError Unit :=
  match get_monthly_limit_for_user user with
  | some monthly_limit =>
    match usage_records with
    | none => Except.error ProxyError.databaseError
    | some records =>
      let total_requests := records.sum
      if total_requests ≥ monthly_limit then
        Except.error (ProxyError.monthlyLimitExceeded total_requests monthly_limit)
      else
        Except.ok ()
  | none => Except.ok ()

/-- Outcome of one upstream attempt, as observed by the retry loop of
ProxyService::make_upstream_request: a response (status code), a request
error, or a per-attempt timeout. -/
inductive AttemptOutcome where
  | success (status : Nat)
  | failure (msg : String)
  | timedOut
deriving Repr, DecidableEq

/-- Retry loop of ProxyService::make_upstream_request of proxy.rs, driven by
an oracle giving each attempt's outcome; attempt is the index of the current
attempt and remaining the number of attempts still allowed including the
current one.  Returns the result (none models the unreachable end of the
loop, hit only when fewer than one attempt is allowed) together with the
backoff sleeps performed, as (attempt, delay in ms) pairs. -/
def make_upstream_requestGo (outcomes : Nat → AttemptOutcome) :
    Nat → Nat → Option (Except ProxyError Nat) × List (Nat × Nat)
  | _, 0 => (none, [])
  | attempt, remaining + 1 =>
    match outcomes attempt with
    | AttemptOutcome.success status => (some (Except.ok status), [])
    | AttemptOutcome.failure msg =>
      if remaining = 0 then
        (some (Except.error (ProxyError.upstreamError msg)), [])
      else
        let rest := make_upstream_requestGo outcomes (attempt + 1) remaining
        (rest.1, (attempt, 100 * 2 ^ (attempt - 1)) :: rest.2)
    | AttemptOutcome.timedOut =>
      if remaining = 0 then
        (some (Except.error ProxyError.timedOut), [])
      else
        let rest := make_upstream_requestGo outcomes (attempt + 1) remaining
        (rest.1, (attempt, 100 * 2 ^ (attempt - 1)) :: rest.2)

/-- ProxyService::make_upstream_request of proxy.rs: attempts run from 1 up
to max_retries; a success returns the response, a failure or timeout on the
final attempt returns the typed error, and every failed attempt that is
followed by another attempt first sleeps 100 ms times 2 to the power
(attempt - 1). -/
def ProxyService.make_upstream_request (outcomes : Nat → AttemptOutcome)
    (max_retries : Int) : Option (Except ProxyError Nat) × List (Nat × Nat) :=
  make_upstream_requestGo outcomes 1 max_retries.toNat

/-- Retry loop of GatewayService::forward_request of gateway.rs, driven by
an oracle giving each attempt's outcome (a response status or an error
message).  On failure the loop sleeps 100 ms times 2 to the power
(attempt - 1) only when another attempt follows; when all attempts fail the
error reports the attempt count (the source then unwraps the last error,
which assumes at least one attempt ran). -/
def forward_requestGo (outcomes : Nat → Except String Nat) (max_retries : Nat) :
    Nat → Nat → Except AppError Nat × List (Nat × Nat)
  | _, 0 => (Except.error (AppError.externalService max_retries), [])
  | attempt, remaining + 1 =>
    match outcomes attempt with
    | Except.ok status => (Except.ok status, [])
    | Except.error _ =>
      if remaining = 0 then
        (Except.error (AppError.externalService max_retries), [])
      else
        let rest := forward_requestGo outcomes max_retries (attempt + 1) remaining
        (rest.1, (attempt, 100 * 2 ^ (attempt - 1)) :: rest.2)

/-- Retry portion of GatewayService::forward_request of gateway.rs:
max_retries is the endpoint's retry_attempts (default 0) plus one. -/
def GatewayService.forward_request_attempts (outcomes : Nat → Except String Nat)
    (retry_attempts : Option Int) : Except AppError Nat × List (Nat × Nat) :=
  let max_retries := retry_attempts.getD 0 + 1
  forward_requestGo outcomes max_retries.toNat 1 max_retries.toNat

/-! ## Header preparation (gateway.rs and proxy.rs) -/

/-- HeaderMap::insert: any existing values for the name are replaced. -/
def headerInsert (m : List (String × String)) (n v : String) : List (String × String) :=
  m.filter (fun h => h.1 ≠ n) ++ [(n, v)]

/-- HeaderMap::remove: drops all values for the name. -/
def headerRemove (m : List (String × String)) (n : String) : List (String × String) :=
  m.filter (fun h => h.1 ≠ n)

/-- The hop-by-hop header list of ProxyService::prepare_upstream_headers
of proxy.rs. -/
def hop_by_hop_headers : List String :=
  ["connection", "keep-alive", "proxy-authenticate", "proxy-authorization",
   "te", "trailers", "transfer-encoding", "upgrade", "host"]

/-- ProxyService::prepare_upstream_headers of proxy.rs: copies every
incoming header whose lowercased name is not hop-by-hop into a fresh map,
then inserts the provenance header x-forwarded-by: august-credits. -/
def ProxyService.prepare_upstream_headers (headers : List (String × String)) :
    List (String × String) :=
  let upstream_headers := headers.foldl
    (fun acc h =>
      if hop_by_hop_headers.contains h.1.toLower then acc
      else headerInsert acc h.1 h.2) []
  headerInsert upstream_headers "x-forwarded-by" "august-credits"

/-- The names removed by the header section of GatewayService::forward_request
of gateway.rs, in removal order. -/
def gateway_removed_headers : List String :=
  ["host", "connection", "proxy-authorization", "proxy-authenticate",
   "te", "trailers", "transfer-encoding", "upgrade"]

/-- Header section of GatewayService::forward_request of gateway.rs: removes
each name of gateway_removed_headers from the incoming map, then inserts the
provenance header x-forwarded-by: august-credits. -/
def GatewayService.forward_request_headers (headers : List (String × String)) :
    List (String × String) :=
  headerInsert (gateway_removed_headers.foldl (fun acc n => headerRemove acc n) headers)
    "x-forwarded-by" "august-credits"

/-! ## Proxy request pipeline (proxy.rs) -/

/-- Digit-by-digit accumulator for parse_u128. -/
def parse_u128Go : List Char → Nat → Option Nat
  | [], acc => some acc
  | c :: cs, acc =>
    if c.isDigit then parse_u128Go cs (acc * 10 + (c.toNat - 48)) else none

/-- Embeds the str parse to u128 applied to price_per_request in proxy.rs:
an empty string or any non-digit character fails (overflow beyond 2 to the
128, which no claim exercises, is not modelled). -/
def parse_u128 (s : String) : Option Nat :=
  if s.data.isEmpty then none else parse_u128Go s.data 0

/-- Oracle for one run of ProxyService::proxy_request: the database answers
for the rate-limit count and the period usage records (none models a storage
failure), the per-attempt upstream outcomes, whether the request-log write
and the usage-record write succeed, whether the body reads successfully, and
the wall clock. -/
structure ProxyEnv where
  rate_check : Option (Int × Int)
  usage_records : Option (List Int)
  attempt_outcomes : Nat → AttemptOutcome
  body_ok : Bool
  log_ok : Bool
  usage_write_ok : Bool
  now : Nat

/-- ProxyService::proxy_request of proxy.rs: method allow-list, rate-limit
check, monthly-quota check, price parse and body read, then the upstream
retry loop; on upstream success the request log and the usage record are
written and a failure of either surfaces as databaseError; on upstream
failure the request log is written (a failure of which also surfaces as
databaseError) and the upstream error is returned.  The first component is
the caller-visible result (ok carries the upstream status; none models the
unreachable end of the retry loop), the second whether the upstream was
invoked at all, the third the backoff sleeps performed. -/
def ProxyService.proxy_request (user : AuthUser) (endpoint : ApiEndpoint)
    (method : String) (env : ProxyEnv) :
    Option (Except ProxyError Nat) × Bool × List (Nat × Nat) :=
  if ¬ endpoint.allowed_methods.contains method then
    (some (Except.error (ProxyError.methodNotAllowed method)), false, [])
  else
    match ProxyService.check_rate_limits user endpoint env.rate_check env.now with
    | Except.error e => (some (Except.error e), false, [])
    | Except.ok _ =>
      match ProxyService.check_monthly_limits user env.usage_records with
      | Except.error e => (some (Except.error e), false, [])
      | Except.ok _ =>
        match parse_u128 endpoint.price_per_request with
        | none => (some (Except.error ProxyError.invalidPricing), false, [])
        | some _cost =>
          if ¬ env.body_ok then
            (some (Except.error ProxyError.invalidRequestBody), false, [])
          else
            let up := ProxyService.make_upstream_request env.attempt_outcomes
              (endpoint.retry_attempts.getD 3)
            match up.1 with
            | none => (none, true, up.2)
            | some (Except.ok status) =>
              if env.log_ok then
                if env.usage_write_ok then (some (Except.ok status), true, up.2)
                else (some (Except.error ProxyError.databaseError), true, up.2)
              else (some (Except.error ProxyError.databaseError), true, up.2)
            | some (Except.error e) =>
              if env.log_ok then (some (Except.error e), true, up.2)
              else (some (Except.error ProxyError.databaseError), true, up.2)

/-- Tail of GatewayService::process_request of gateway.rs after a successful
forward: the request-log write and the metering update run in a spawned task
whose failures are only logged; the function returns the caller-visible
result together with the error lines logged by the spawned task. -/
def GatewayService.process_request_tail (response : Nat)
    (log_result meter_result : Except String Unit) :
    Except AppError Nat × List String :=
  (Except.ok response,
    (match log_result with
     | Except.error e => ["Failed to log request: " ++ e]
     | Except.ok _ => []) ++
    (match meter_result with
     | Except.error e => ["Failed to update metering: " ++ e]
     | Except.ok _ => []))

/-! ## Transaction confirmation polling (blockchain.rs) -/

/-- Transaction receipt as read by wait_for_confirmation of blockchain.rs:
the execution status (0 meaning failure) and the inclusion block number,
both optional. -/
structure Receipt where
  status : Option Nat
  block_number : Option Nat
deriving Repr, DecidableEq

/-- One iteration of the polling loop observes an optional receipt and, when
it consults the chain head, the latest block height. -/
structure PollStep where
  receipt : Option Receipt
  latest_block : Nat
deriving Repr, DecidableEq

/-- Transaction status of blockchain.rs (enum TransactionStatus). -/
inductive TransactionStatus where
  | pending
  | confirmed
  | failed
  | reverted
deriving Repr, DecidableEq

/-- Result of wait_for_confirmation of blockchain.rs, restricted to the
fields the polling logic determines (hash and gas are copied through). -/
structure TransactionResult where
  block_number : Option Nat
  status : TransactionStatus
  confirmations : Nat
deriving Repr, DecidableEq

/-- BlockchainClient::wait_for_confirmation of blockchain.rs over a finite
trace of poll observations (none is returned when the trace ends with the
loop still running; the source loop is unbounded).  The confirmations
counter starts at 0 and is updated to latest_block - block_number
(saturating) whenever the receipt carries a block number; a receipt with
status 0 returns Failed immediately with the counter's current value; once
the counter reaches the required depth the result is Confirmed with the
counter's value. -/
def BlockchainClient.wait_for_confirmation (required_confirmations : Nat) :
    Nat → List PollStep → Option TransactionResult
  | _, [] => none
  | confirmations, step :: rest =>
    match step.receipt with
    | some receipt =>
      if receipt.status = some 0 then
        some ⟨receipt.block_number, TransactionStatus.failed, confirmations⟩
      else
        match receipt.block_number with
        | some block_number =>
          let confirmations1 := step.latest_block - block_number
          if required_confirmations ≤ confirmations1 then
            some ⟨some block_number, TransactionStatus.confirmed, confirmations1⟩
          else
            BlockchainClient.wait_for_confirmation required_confirmations confirmations1 rest
        | none => BlockchainClient.wait_for_confirmation required_confirmations confirmations rest
    | none => BlockchainClient.wait_for_confirmation required_confirmations confirmations rest

/-! ## Retry backoff (claim C2) -/

theorem make_upstream_requestGo_sleeps (outcomes : Nat → AttemptOutcome) :
    ∀ (remaining attempt : Nat), ∀ p ∈ (make_upstream_requestGo outcomes attempt remaining).2,
      p.2 = 100 * 2 ^ (p.1 - 1) := by
  intro remaining
  induction remaining with
  | zero =>
    intro attempt p hp
    simp [make_upstream_requestGo] at hp
  | succ r ih =>
    intro attempt p hp
    unfold make_upstream_requestGo at hp
    cases h : outcomes attempt with
    | success status =>
      rw [h] at hp
      simp at hp
    | failure msg =>
      rw [h] at hp
      dsimp only at hp
      by_cases hr : r = 0
      · subst hr
        simp at hp
      · rw [if_neg hr] at hp
        dsimp only at hp
        rcases List.mem_cons.mp hp with h1 | h1
        · subst h1; rfl
        · exact ih (attempt + 1) p h1
    | timedOut =>
      rw [h] at hp
      dsimp only at hp
      by_cases hr : r = 0
      · subst hr
        simp at hp
      · rw [if_neg hr] at hp
        dsimp only at hp
        rcases List.mem_cons.mp hp with h1 | h1
        · subst h1; rfl
        · exact ih (attempt + 1) p h1

theorem forward_requestGo_sleeps (outcomes : Nat → Except String Nat) (max_retries : Nat) :
    ∀ (remaining attempt : Nat), ∀ p ∈ (forward_requestGo outcomes max_retries attempt remaining).2,
      p.2 = 100 * 2 ^ (p.1 - 1) := by
  intro remaining
  induction remaining with
  | zero =>
    intro attempt p hp
    simp [forward_requestGo] at hp
  | succ r ih =>
    intro attempt p hp
    unfold forward_requestGo at hp
    cases h : outcomes attempt with
    | ok status =>
      rw [h] at hp
      simp at hp
    | error msg =>
      rw [h] at hp
      dsimp only at hp
      by_cases hr : r = 0
      · subst hr
        simp at hp
      · rw [if_neg hr] at hp
        dsimp only at hp
        rcases List.mem_cons.mp hp with h1 | h1
        · subst h1; rfl
        · exact ih (attempt + 1) p h1

/-- Claim C2: every backoff sleep performed by either retry loop after a
failed attempt n that is followed by another attempt lasts exactly
100 ms times 2 to the power (n - 1); concretely, with retry_attempts = 3
and an upstream failing the first two attempts and succeeding on the
third, both forwarders return the response after sleeps of 100 ms and
200 ms, a total backoff of 300 ms. -/
theorem retry_backoff_deterministic (outcomes : Nat → AttemptOutcome)
    (gw_outcomes : Nat → Except String Nat) (max_retries : Int)
    (retry_attempts : Option Int) (p q : Nat × Nat)
    (hp : p ∈ (ProxyService.make_upstream_request outcomes max_retries).2)
    (hq : q ∈ (GatewayService.forward_request_attempts gw_outcomes retry_attempts).2) :
    p.2 = 100 * 2 ^ (p.1 - 1)
    ∧ q.2 = 100 * 2 ^ (q.1 - 1)
    ∧ ProxyService.make_upstream_request
        (fun n => if n ≤ 2 then AttemptOutcome.failure "connection refused"
                  else AttemptOutcome.success 200) 3
        = (some (Except.ok 200), [(1, 100), (2, 200)])
    ∧ GatewayService.forward_request_attempts
        (fun n => if n ≤ 2 then Except.error "connection refused" else Except.ok 200) (some 3)
        = (Except.ok 200, [(1, 100), (2, 200)])
    ∧ ((ProxyService.make_upstream_request
        (fun n => if n ≤ 2 then AttemptOutcome.failure "connection refused"
                  else AttemptOutcome.success 200) 3).2.map Prod.snd).sum = 300 :=
  ⟨make_upstream_requestGo_sleeps outcomes _ 1 p hp,
   forward_requestGo_sleeps gw_outcomes _ _ 1 q hq,
   by rfl, by rfl, by rfl⟩

theorem retry_backoff_deterministic_witness :
    (1, 100).2 = 100 * 2 ^ ((1, 100).1 - 1)
    ∧ (2, 200).2 = 100 * 2 ^ ((2, 200).1 - 1)
    ∧ ProxyService.make_upstream_request
        (fun n => if n ≤ 2 then AttemptOutcome.failure "connection refused"
                  else AttemptOutcome.success 200) 3
        = (some (Except.ok 200), [(1, 100), (2, 200)])
    ∧ GatewayService.forward_request_attempts
        (fun n => if n ≤ 2 then Except.error "connection refused" else Except.ok 200) (some 3)
        = (Except.ok 200, [(1, 100), (2, 200)])
    ∧ ((ProxyService.make_upstream_request
        (fun n => if n ≤ 2 then AttemptOutcome.failure "connection refused"
                  else AttemptOutcome.success 200) 3).2.map Prod.snd).sum = 300 :=
  retry_backoff_deterministic
    (fun n => if n ≤ 2 then AttemptOutcome.failure "connection refused"
              else AttemptOutcome.success 200)
    (fun n => if n ≤ 2 then Except.error "connection refused" else Except.ok 200)
    3 (some 3) (1, 100) (2, 200) (by decide) (by decide)

/-! ## Confirmation polling (claims C3 and C9) -/

/-- A poll observation that does not end the loop of wait_for_confirmation:
either no receipt, or a receipt whose status is not the failure status 0 and
whose inclusion depth, when it carries a block number, is still below the
required confirmations. -/
def nonTriggeringStep (required : Nat) (s : PollStep) : Bool :=
  match s.receipt with
  | none => true
  | some rc =>
    if rc.status = some 0 then false
    else
      match rc.block_number with
      | none => true
      | some bn => decide (s.latest_block - bn < required)

theorem nonTriggeringStep_spec (required : Nat) (s : PollStep) (rc : Receipt)
    (hrc : s.receipt = some rc) (hs : nonTriggeringStep required s = true) :
    rc.status ≠ some 0
    ∧ ∀ bn, rc.block_number = some bn → s.latest_block - bn < required := by
  unfold nonTriggeringStep at hs
  rw [hrc] at hs
  dsimp only at hs
  by_cases hst : rc.status = some 0
  · rw [if_pos hst] at hs
    cases hs
  · rw [if_neg hst] at hs
    refine ⟨hst, ?_⟩
    intro bn hbn
    rw [hbn] at hs
    dsimp only at hs
    exact of_decide_eq_true hs

theorem wait_none_of_nonTriggering (required : Nat) :
    ∀ (pre : List PollStep) (conf0 : Nat),
      (∀ s ∈ pre, nonTriggeringStep required s = true) →
      BlockchainClient.wait_for_confirmation required conf0 pre = none := by
  intro pre
  induction pre with
  | nil => intro conf0 _; rfl
  | cons s pre ih =>
    intro conf0 hall
    have hs := hall s (by simp)
    have htail : ∀ x ∈ pre, nonTriggeringStep required x = true :=
      fun x hx => hall x (List.mem_cons_of_mem _ hx)
    unfold BlockchainClient.wait_for_confirmation
    cases hrc : s.receipt with
    | none =>
      dsimp only
      exact ih conf0 htail
    | some rc =>
      obtain ⟨hst, hd⟩ := nonTriggeringStep_spec required s rc hrc hs
      dsimp only
      rw [if_neg hst]
      cases hbn : rc.block_number with
      | none =>
        dsimp only
        exact ih conf0 htail
      | some bn =>
        dsimp only
        rw [if_neg (by have := hd bn hbn; omega)]
        exact ih _ htail

theorem wait_confirmed_ge (required : Nat) :
    ∀ (steps : List PollStep) (conf0 : Nat) (r : TransactionResult),
      BlockchainClient.wait_for_confirmation required conf0 steps = some r →
      r.status = TransactionStatus.confirmed →
      required ≤ r.confirmations := by
  intro steps
  induction steps with
  | nil => intro conf0 r h _; simp [BlockchainClient.wait_for_confirmation] at h
  | cons s steps ih =>
    intro conf0 r h hconf
    unfold BlockchainClient.wait_for_confirmation at h
    cases hrc : s.receipt with
    | none =>
      rw [hrc] at h
      dsimp only at h
      exact ih conf0 r h hconf
    | some rc =>
      rw [hrc] at h
      dsimp only at h
      by_cases hst : rc.status = some 0
      · rw [if_pos hst] at h
        have := (Option.some.injEq _ _).mp h
        rw [← this] at hconf
        simp at hconf
      · rw [if_neg hst] at h
        cases hbn : rc.block_number with
        | none =>
          rw [hbn] at h
          dsimp only at h
          exact ih conf0 r h hconf
        | some bn =>
          rw [hbn] at h
          dsimp only at h
          by_cases hd : required ≤ s.latest_block - bn
          · rw [if_pos hd] at h
            have hr := (Option.some.injEq _ _).mp h
            rw [← hr]
            exact hd
          · rw [if_neg hd] at h
            exact ih _ r h hconf

theorem wait_returns_at_first_deep_step (required : Nat) (final : PollStep)
    (rc : Receipt) (bn : Nat) (rest : List PollStep)
    (hrc : final.receipt = some rc) (hst : rc.status ≠ some 0)
    (hbn : rc.block_number = some bn)
    (hdepth : required ≤ final.latest_block - bn) :
    ∀ (pre : List PollStep) (conf0 : Nat),
      (∀ s ∈ pre, nonTriggeringStep required s = true) →
      BlockchainClient.wait_for_confirmation required conf0 (pre ++ final :: rest)
        = some ⟨some bn, TransactionStatus.confirmed, final.latest_block - bn⟩ := by
  intro pre
  induction pre with
  | nil =>
    intro conf0 _
    simp only [List.nil_append]
    unfold BlockchainClient.wait_for_confirmation
    rw [hrc]
    dsimp only
    rw [if_neg hst, hbn]
    dsimp only
    rw [if_pos hdepth]
  | cons s pre ih =>
    intro conf0 hall
    have hs := hall s (by simp)
    have htail : ∀ x ∈ pre, nonTriggeringStep required x = true :=
      fun x hx => hall x (List.mem_cons_of_mem _ hx)
    simp only [List.cons_append]
    unfold BlockchainClient.wait_for_confirmation
    cases hsr : s.receipt with
    | none =>
      dsimp only
      exact ih conf0 htail
    | some src =>
      obtain ⟨hsst, hsd⟩ := nonTriggeringStep_spec required s src hsr hs
      dsimp only
      rw [if_neg hsst]
      cases hsbn : src.block_number with
      | none =>
        dsimp only
        exact ih conf0 htail
      | some sbn =>
        dsimp only
        rw [if_neg (by have := hsd sbn hsbn; omega)]
        exact ih _ htail

/-- Claim C3 counterexample: with required depth 2, a poll observing an
included receipt whose depth is already 10 returns Confirmed although
latest_height - inclusion_height is 10, not 2: the loop returns at depth
greater than or equal to the requirement, not at exact equality. -/
theorem confirmation_polling_cex :
    BlockchainClient.wait_for_confirmation 2 0 [⟨some ⟨some 1, some 10⟩, 20⟩]
      = some ⟨some 10, TransactionStatus.confirmed, 10⟩
    ∧ (20 - 10 : Nat) ≠ 2 := by
  decide

/-- Claim C3 amended: the polling loop returns Confirmed exactly at the
first poll whose observed depth latest_height - inclusion_height reaches at
least the required confirmations — never while the observed depth is below
the requirement — and the result carries the depth observed at that poll as
its confirmation count. -/
theorem confirmation_polling_amended (required conf0 : Nat) (steps : List PollStep)
    (r : TransactionResult) (pre : List PollStep) (final : PollStep)
    (rc : Receipt) (bn : Nat) (rest : List PollStep)
    (h1 : BlockchainClient.wait_for_confirmation required conf0 steps = some r)
    (h2 : r.status = TransactionStatus.confirmed)
    (hpre : ∀ s ∈ pre, nonTriggeringStep required s = true)
    (hrc : final.receipt = some rc) (hst : rc.status ≠ some 0)
    (hbn : rc.block_number = some bn)
    (hdepth : required ≤ final.latest_block - bn) :
    required ≤ r.confirmations
    ∧ BlockchainClient.wait_for_confirmation required conf0 pre = none
    ∧ BlockchainClient.wait_for_confirmation required conf0 (pre ++ final :: rest)
        = some ⟨some bn, TransactionStatus.confirmed, final.latest_block - bn⟩ :=
  ⟨wait_confirmed_ge required steps conf0 r h1 h2,
   wait_none_of_nonTriggering required pre conf0 hpre,
   wait_returns_at_first_deep_step required final rc bn rest hrc hst hbn hdepth pre conf0 hpre⟩

theorem confirmation_polling_amended_witness :
    (2 : Nat) ≤ (TransactionResult.mk (some 5) TransactionStatus.confirmed 2).confirmations
    ∧ BlockchainClient.wait_for_confirmation 2 0 [⟨none, 0⟩, ⟨some ⟨none, some 5⟩, 6⟩] = none
    ∧ BlockchainClient.wait_for_confirmation 2 0
        ([⟨none, 0⟩, ⟨some ⟨none, some 5⟩, 6⟩] ++ PollStep.mk (some ⟨none, some 5⟩) 9 :: [])
        = some ⟨some 5, TransactionStatus.confirmed, (PollStep.mk (some ⟨none, some 5⟩) 9).latest_block - 5⟩ :=
  confirmation_polling_amended 2 0 [⟨some ⟨none, some 5⟩, 7⟩]
    ⟨some 5, TransactionStatus.confirmed, 2⟩
    [⟨none, 0⟩, ⟨some ⟨none, some 5⟩, 6⟩] (PollStep.mk (some ⟨none, some 5⟩) 9)
    ⟨none, some 5⟩ 5 [] (by decide) rfl (by decide) rfl (by decide) rfl (by decide)

/-- Claim C9: when the first receipt the polling loop observes reports
execution failure (status 0), the executor returns Failed at once with the
confirmation counter still 0, independently of any later polls. -/
theorem failed_receipt_returns_immediately (required : Nat) (pre : List PollStep)
    (hpre : ∀ s ∈ pre, s.receipt = none)
    (rc : Receipt) (hst : rc.status = some 0) (lat : Nat) (rest : List PollStep) :
    BlockchainClient.wait_for_confirmation required 0 (pre ++ PollStep.mk (some rc) lat :: rest)
      = some ⟨rc.block_number, TransactionStatus.failed, 0⟩ := by
  induction pre with
  | nil =>
    simp only [List.nil_append]
    unfold BlockchainClient.wait_for_confirmation
    dsimp only
    rw [if_pos hst]
  | cons s pre ih =>
    have hs : s.receipt = none := hpre s (by simp)
    simp only [List.cons_append]
    unfold BlockchainClient.wait_for_confirmation
    rw [hs]
    dsimp only
    exact ih (fun x hx => hpre x (List.mem_cons_of_mem _ hx))

theorem failed_receipt_returns_immediately_witness :
    BlockchainClient.wait_for_confirmation 3 0
        ([⟨none, 0⟩] ++ PollStep.mk (some ⟨some 0, some 7⟩) 9 :: [⟨none, 0⟩])
      = some ⟨(Receipt.mk (some 0) (some 7)).block_number, TransactionStatus.failed, 0⟩ :=
  failed_receipt_returns_immediately 3 [⟨none, 0⟩] (by decide) ⟨some 0, some 7⟩ rfl 9 [⟨none, 0⟩]

/-! ## Monthly quota and recording (claims C4 and C5) -/

/-- Claim C4: a caller with a monthly quota whose summed current-period
request count is at or over the quota is rejected by the proxy pipeline
with monthlyLimitExceeded carrying the current total and the quota, before
the upstream is invoked and with no backoff sleeps performed. -/
theorem monthly_limit_rejected_before_upstream (user : AuthUser) (endpoint : ApiEndpoint)
    (method : String) (env : ProxyEnv) (q : Int) (records : List Int)
    (hq : user.monthly_limit = some q)
    (hrecords : env.usage_records = some records)
    (hover : q ≤ records.sum)
    (hmethod : endpoint.allowed_methods.contains method = true)
    (hrate : ProxyService.check_rate_limits user endpoint env.rate_check env.now
      = Except.ok ()) :
    ProxyService.proxy_request user endpoint method env
      = (some (Except.error (ProxyError.monthlyLimitExceeded records.sum q)), false, []) := by
  have hmon : ProxyService.check_monthly_limits user env.usage_records
      = Except.error (ProxyError.monthlyLimitExceeded records.sum q) := by
    unfold ProxyService.check_monthly_limits get_monthly_limit_for_user
    rw [hq]
    dsimp only
    rw [hrecords]
    dsimp only
    rw [if_pos (by omega)]
  unfold ProxyService.proxy_request
  rw [hmethod]
  simp only [not_true, if_false]
  rw [hrate]
  dsimp only
  rw [hmon]

theorem monthly_limit_rejected_before_upstream_witness :
    ProxyService.proxy_request ⟨7, "w", "k", UserTier.pro, true, some 100, some 1000⟩
        ⟨1, "api", "https://up", "5", true, none, none, ["GET"], none, some 1⟩ "GET"
        ⟨some (0, 1000), some [60, 40], fun _ => AttemptOutcome.success 200, true, true, true, 0⟩
      = (some (Except.error (ProxyError.monthlyLimitExceeded ([60, 40] : List Int).sum 100)),
          false, []) :=
  monthly_limit_rejected_before_upstream
    ⟨7, "w", "k", UserTier.pro, true, some 100, some 1000⟩
    ⟨1, "api", "https://up", "5", true, none, none, ["GET"], none, some 1⟩ "GET"
    ⟨some (0, 1000), some [60, 40], fun _ => AttemptOutcome.success 200, true, true, true, 0⟩
    100 [60, 40] rfl rfl (by decide) (by decide) (by rfl)

/-- Claim C5 counterexample: in the proxy pipeline a forwarded call whose
upstream attempt succeeds with status 200 returns the response when the
request-log write succeeds, but returns databaseError to the caller when
that write fails: the recording failure is surfaced, not swallowed. -/
theorem recording_failure_surfaced_cex :
    ProxyService.proxy_request ⟨7, "w", "k", UserTier.pro, true, none, none⟩
        ⟨1, "api", "https://up", "5", true, none, none, ["GET"], none, some 1⟩ "GET"
        ⟨some (0, 1000), some [], fun _ => AttemptOutcome.success 200, true, true, true, 0⟩
      = (some (Except.ok 200), true, [])
    ∧ ProxyService.proxy_request ⟨7, "w", "k", UserTier.pro, true, none, none⟩
        ⟨1, "api", "https://up", "5", true, none, none, ["GET"], none, some 1⟩ "GET"
        ⟨some (0, 1000), some [], fun _ => AttemptOutcome.success 200, true, false, true, 0⟩
      = (some (Except.error ProxyError.databaseError), true, []) :=
  ⟨rfl, rfl⟩

/-- Claim C5 amended: in the gateway service the recording runs in a spawned
task whose failures are only logged and never change the caller-visible
result, which stays the forwarded response; in the proxy service, however, a
storage failure while writing the request log or the usage record after a
successful upstream call surfaces to the caller as databaseError — shown in
general for either failing write, and concretely for a failing usage-record
write alone. -/
theorem recording_failures_amended (response status : Nat) (lr mr : Except String Unit)
    (user : AuthUser) (endpoint : ApiEndpoint) (method : String) (env : ProxyEnv)
    (sleeps : List (Nat × Nat)) (c : Nat)
    (hmethod : endpoint.allowed_methods.contains method = true)
    (hrate : ProxyService.check_rate_limits user endpoint env.rate_check env.now
      = Except.ok ())
    (hmon : ProxyService.check_monthly_limits user env.usage_records = Except.ok ())
    (hprice : parse_u128 endpoint.price_per_request = some c)
    (hbody : env.body_ok = true)
    (hup : ProxyService.make_upstream_request env.attempt_outcomes
        (endpoint.retry_attempts.getD 3) = (some (Except.ok status), sleeps))
    (hrec : env.log_ok = false ∨ env.usage_write_ok = false) :
    (GatewayService.process_request_tail response lr mr).1 = Except.ok response
    ∧ ProxyService.proxy_request user endpoint method env
        = (some (Except.error ProxyError.databaseError), true, sleeps)
    ∧ ProxyService.proxy_request ⟨7, "w", "k", UserTier.pro, true, none, none⟩
        ⟨1, "api", "https://up", "5", true, none, none, ["GET"], none, some 1⟩ "GET"
        ⟨some (0, 1000), some [], fun _ => AttemptOutcome.success 200, true, true, false, 0⟩
        = (some (Except.error ProxyError.databaseError), true, []) := by
  refine ⟨rfl, ?_, by rfl⟩
  unfold ProxyService.proxy_request
  rw [hmethod]
  simp only [not_true, if_false]
  rw [hrate]
  dsimp only
  rw [hmon]
  dsimp only
  rw [hprice]
  dsimp only
  rw [hbody]
  simp only [not_true, if_false]
  rw [hup]
  dsimp only
  rcases hrec with hlog | husage
  · rw [hlog]
    simp
  · rw [husage]
    cases hl : env.log_ok <;> simp

theorem recording_failures_amended_witness :
    (GatewayService.process_request_tail 200 (Except.error "disk full") (Except.ok ())).1
      = Except.ok 200
    ∧ ProxyService.proxy_request ⟨7, "w", "k", UserTier.pro, true, none, none⟩
        ⟨1, "api", "https://up", "5", true, none, none, ["GET"], none, some 1⟩ "GET"
        ⟨some (0, 1000), some [], fun _ => AttemptOutcome.success 200, true, false, true, 0⟩
      = (some (Except.error ProxyError.databaseError), true, [])
    ∧ ProxyService.proxy_request ⟨7, "w", "k", UserTier.pro, true, none, none⟩
        ⟨1, "api", "https://up", "5", true, none, none, ["GET"], none, some 1⟩ "GET"
        ⟨some (0, 1000), some [], fun _ => AttemptOutcome.success 200, true, true, false, 0⟩
        = (some (Except.error ProxyError.databaseError), true, []) :=
  recording_failures_amended 200 200 (Except.error "disk full") (Except.ok ())
    ⟨7, "w", "k", UserTier.pro, true, none, none⟩
    ⟨1, "api", "https://up", "5", true, none, none, ["GET"], none, some 1⟩ "GET"
    ⟨some (0, 1000), some [], fun _ => AttemptOutcome.success 200, true, false, true, 0⟩
    [] 5 (by decide) (by rfl) (by rfl) (by rfl) rfl (by rfl) (Or.inl rfl)

/-! ## Reset time on rejection (claim C6) -/

/-- Claim C6 counterexample: a proxy-path rate-limit rejection at time 10
with a 60-second window reports reset time 70 = now + window, although the
key's stored metering window, holding oldest timestamp 5, resets at
5 + 60 = 65: the proxy-path report is not oldest timestamp plus window. -/
theorem rejection_reset_time_cex :
    ProxyService.check_rate_limits ⟨7, "w", "k", UserTier.free, true, none, none⟩
        ⟨1, "api", "https://up", "5", true, some 100, some 60, ["GET"], none, none⟩
        (some (100, 100)) 10
      = Except.error (ProxyError.rateLimitExceeded 100 100 70)
    ∧ RateLimitWindow.reset_time ⟨[5], 1, 60⟩ = some 65
    ∧ (70 : Nat) ≠ 65 := by
  refine ⟨by rfl, by rfl, by decide⟩

/-- Claim C6 amended: the in-memory metering limiter reports, on a rejected
check, a reset time equal to the oldest surviving stored timestamp plus the
window length; the proxy service's database-backed check instead reports the
current time plus the endpoint's window (default 60 s), independent of any
stored timestamp. -/
theorem rejection_reset_time_amended (w : RateLimitWindow) (now : Nat)
    (hpos : 0 < w.limit) (hrej : (w.can_make_request now).1 = false)
    (user : AuthUser) (endpoint : ApiEndpoint) (cur lim : Int) (now2 : Nat)
    (hcur : get_rate_limit_for_user user endpoint.rate_limit ≤ cur) :
    0 < (w.can_make_request now).2.requests.length
    ∧ (w.can_make_request now).2.reset_time
        = some ((w.can_make_request now).2.requests.headD 0 + w.window_seconds)
    ∧ ProxyService.check_rate_limits user endpoint (some (cur, lim)) now2
        = Except.error (ProxyError.rateLimitExceeded cur
            (get_rate_limit_for_user user endpoint.rate_limit)
            (now2 + u64cast (endpoint.rate_limit_window.getD 60))) := by
  unfold RateLimitWindow.can_make_request at hrej ⊢
  dsimp only at hrej ⊢
  by_cases hlt : (w.requests.filter
      (fun timestamp => decide (now - timestamp < w.window_seconds))).length < w.limit
  · rw [if_pos hlt] at hrej
    cases hrej
  · rw [if_neg hlt]
    dsimp only
    refine ⟨by omega, ?_, ?_⟩
    · cases hk : w.requests.filter (fun timestamp => decide (now - timestamp < w.window_seconds)) with
      | nil =>
        rw [hk] at hlt
        exact absurd (by simpa using hpos) hlt
      | cons a t =>
        unfold RateLimitWindow.reset_time
        dsimp only
        rfl
    · unfold ProxyService.check_rate_limits
      dsimp only
      rw [if_pos hcur]

theorem rejection_reset_time_amended_witness :
    0 < (RateLimitWindow.can_make_request ⟨[5], 1, 60⟩ 10).2.requests.length
    ∧ (RateLimitWindow.can_make_request ⟨[5], 1, 60⟩ 10).2.reset_time
        = some ((RateLimitWindow.can_make_request ⟨[5], 1, 60⟩ 10).2.requests.headD 0
            + RateLimitWindow.window_seconds ⟨[5], 1, 60⟩)
    ∧ ProxyService.check_rate_limits ⟨7, "w", "k", UserTier.free, true, none, none⟩
        ⟨1, "api", "https://up", "5", true, some 100, some 60, ["GET"], none, none⟩
        (some (100, 100)) 10
      = Except.error (ProxyError.rateLimitExceeded 100
          (get_rate_limit_for_user ⟨7, "w", "k", UserTier.free, true, none, none⟩
            (ApiEndpoint.rate_limit ⟨1, "api", "https://up", "5", true, some 100, some 60, ["GET"], none, none⟩))
          (10 + u64cast ((ApiEndpoint.rate_limit_window
            ⟨1, "api", "https://up", "5", true, some 100, some 60, ["GET"], none, none⟩).getD 60))) :=
  rejection_reset_time_amended ⟨[5], 1, 60⟩ 10 (by decide) (by rfl)
    ⟨7, "w", "k", UserTier.free, true, none, none⟩
    ⟨1, "api", "https://up", "5", true, some 100, some 60, ["GET"], none, none⟩
    100 100 10 (by decide)

/-! ## Effective limit precedence (claim C7) -/

/-- Claim C7 counterexample: a Free-tier caller with no override calling a
resource whose configured limit is 5000 gets effective limit 100 (the
tier-based limit) from get_rate_limit_for_user of auth.rs, not the
resource-configured 5000 that strict precedence would give. -/
theorem rate_limit_precedence_cex :
    get_rate_limit_for_user ⟨7, "w", "k", UserTier.free, true, none, none⟩ (some 5000) = 100
    ∧ (100 : Int) ≠ 5000 := by
  decide

/-- Claim C7 amended: the metering service resolves the effective limit with
strict precedence — caller override, else resource-configured limit, else
the service default — while the auth helper used by the proxy path takes the
caller override if present but otherwise the more restrictive of the
tier-based limit and the resource-configured limit (the tier-based limit
when the resource sets none). -/
theorem rate_limit_precedence_amended (d w2 : Nat) (user : User) (endpoint : ApiEndpoint)
    (au : AuthUser) (el : Option Int) :
    (MeteringService.get_rate_limit d w2 user endpoint).1
      = (user.rate_limit_override.map u32cast).getD ((endpoint.rate_limit.map u32cast).getD d)
    ∧ get_rate_limit_for_user au el
      = au.rate_limit_override.getD
          (el.elim (tier_limit au.tier) (fun l => min (tier_limit au.tier) l)) := by
  constructor
  · unfold MeteringService.get_rate_limit
    cases user.rate_limit_override <;> cases endpoint.rate_limit <;> simp
  · unfold get_rate_limit_for_user
    cases au.rate_limit_override <;> cases el <;> simp [tier_limit]

/-! ## Header preparation (claim C8) -/

theorem headerInsert_of_not_mem (m : List (String × String)) (n v : String)
    (h : ∀ x ∈ m, x.1 ≠ n) : headerInsert m n v = m ++ [(n, v)] := by
  unfold headerInsert
  rw [List.filter_eq_self.mpr fun a ha => decide_eq_true (h a ha)]

theorem headerInsert_pair_of_not_mem (m : List (String × String)) (p : String × String)
    (h : ∀ x ∈ m, x.1 ≠ p.1) : headerInsert m p.1 p.2 = m ++ [p] := by
  rw [headerInsert_of_not_mem m p.1 p.2 h]

theorem removeAll_eq_filter (ns : List String) :
    ∀ l : List (String × String),
      ns.foldl (fun acc n => headerRemove acc n) l
        = l.filter (fun h => decide (h.1 ∉ ns)) := by
  induction ns with
  | nil =>
    intro l
    simp
  | cons n ns ih =>
    intro l
    rw [List.foldl_cons, ih (headerRemove l n)]
    unfold headerRemove
    rw [List.filter_filter]
    apply List.filter_congr
    intro a _
    by_cases h1 : a.1 = n <;> by_cases h2 : a.1 ∈ ns <;> simp [h1, h2]

theorem prepare_fold (headers : List (String × String)) :
    ∀ acc : List (String × String),
      ((acc ++ headers).map Prod.fst).Nodup →
      headers.foldl (fun acc h =>
          if hop_by_hop_headers.contains h.1.toLower then acc
          else headerInsert acc h.1 h.2) acc
        = acc ++ headers.filter (fun h => !hop_by_hop_headers.contains h.1.toLower) := by
  induction headers with
  | nil =>
    intro acc _
    simp
  | cons h t ih =>
    intro acc hnd
    rw [List.foldl_cons]
    by_cases hc : hop_by_hop_headers.contains h.1.toLower = true
    · rw [if_pos hc]
      have hnd' : ((acc ++ t).map Prod.fst).Nodup := by
        refine List.Nodup.sublist (List.Sublist.map Prod.fst ?_) hnd
        exact List.Sublist.append_left (List.sublist_cons_self h t) acc
      rw [ih acc hnd', List.filter_cons]
      simp only [hc, Bool.not_true, Bool.false_eq_true, if_false]
    · have hc' : hop_by_hop_headers.contains h.1.toLower = false := by
        simpa using hc
      rw [if_neg hc]
      have hx : ∀ x ∈ acc, x.1 ≠ h.1 := by
        intro x hxa hEq
        have hmem : x.1 ∈ acc.map Prod.fst := List.mem_map_of_mem Prod.fst hxa
        rw [hEq] at hmem
        have hdis := List.disjoint_of_nodup_append
          (by simpa only [List.map_append] using hnd)
        exact hdis hmem (by simp)
      rw [headerInsert_pair_of_not_mem acc h hx]
      have hnd' : (((acc ++ [h]) ++ t).map Prod.fst).Nodup := by
        simpa [List.append_assoc] using hnd
      rw [ih (acc ++ [h]) hnd', List.filter_cons]
      simp only [hc', Bool.not_false, if_true, List.append_assoc, List.singleton_append]

/-- Claim C8 counterexample: the gateway forwarder leaves the hop-by-hop
header keep-alive in the forwarded header map — it removes only the other
eight names before adding the provenance header. -/
theorem hop_headers_cex :
    GatewayService.forward_request_headers [("keep-alive", "timeout=5")]
      = [("keep-alive", "timeout=5"), ("x-forwarded-by", "august-credits")]
    ∧ "keep-alive" ∈ hop_by_hop_headers :=
  ⟨by rfl, by decide⟩

/-- Claim C8 amended: the proxy forwarder sends upstream exactly the
incoming headers minus all nine hop-by-hop names (compared lowercased) plus
the provenance header x-forwarded-by: august-credits; the gateway forwarder
removes only eight of those names — it does not strip keep-alive — before
adding the same provenance header; all other headers pass through
unchanged. -/
theorem hop_headers_amended (headers : List (String × String))
    (hnd : (headers.map Prod.fst).Nodup)
    (hxf : ∀ x ∈ headers, x.1 ≠ "x-forwarded-by") :
    ProxyService.prepare_upstream_headers headers
      = headers.filter (fun h => !hop_by_hop_headers.contains h.1.toLower)
          ++ [("x-forwarded-by", "august-credits")]
    ∧ GatewayService.forward_request_headers headers
      = headers.filter (fun h => decide (h.1 ∉ gateway_removed_headers))
          ++ [("x-forwarded-by", "august-credits")] := by
  constructor
  · unfold ProxyService.prepare_upstream_headers
    dsimp only
    rw [prepare_fold headers [] (by simpa using hnd), List.nil_append]
    exact headerInsert_of_not_mem _ _ _
      (fun x hx => hxf x (List.mem_of_mem_filter hx))
  · unfold GatewayService.forward_request_headers
    rw [removeAll_eq_filter gateway_removed_headers headers]
    exact headerInsert_of_not_mem _ _ _
      (fun x hx => hxf x (List.mem_of_mem_filter hx))

theorem hop_headers_amended_witness :
    ProxyService.prepare_upstream_headers
        [("content-type", "application/json"), ("keep-alive", "5"), ("host", "h")]
      = ([("content-type", "application/json"), ("keep-alive", "5"), ("host", "h")].filter
          (fun h => !hop_by_hop_headers.contains h.1.toLower))
          ++ [("x-forwarded-by", "august-credits")]
    ∧ GatewayService.forward_request_headers
        [("content-type", "application/json"), ("keep-alive", "5"), ("host", "h")]
      = ([("content-type", "application/json"), ("keep-alive", "5"), ("host", "h")].filter
          (fun h => decide (h.1 ∉ gateway_removed_headers)))
          ++ [("x-forwarded-by", "august-credits")] :=
  hop_headers_amended
    [("content-type", "application/json"), ("keep-alive", "5"), ("host", "h")]
    (by decide) (by decide)

end AugustCredits
